import Mathlib

/-!
Verification development for the mutual-information CUDA module
(`src/torch_mutual_information/mutual_information_cuda_kernel.cu`).

The source file is a partially corrupted hybrid: the forward DP kernel
`mutual_information_kernel` (lines 98-220) breaks off mid-expression right
after loading the tile border, and the host entry points
`mutual_information_cuda` / `mutual_information_backward_cuda`
(lines 673-838) belong to a piecewise-linear-activation kernel pair that
operates on `(input, params)` tensors.  We embed:

* the log-domain lattice semantics of the forward DP (the DP fill itself is
  truncated out of the source, so that part is modelled from the spec, in
  exp-space, matching the kernel's visible exponentiation of `px`/`py`,
  its `1.0` origin seed and its `0.0` filler values);
* the tile scheduling arithmetic of the kernel that IS present in the source
  (lines 104-174 and 191-215), literally, including its quirks;
* the host-side entry points (validation checks, early returns, grid-size
  computation, parameter-gradient reduction) exactly as written.
-/

namespace MutualInfo

/-- A value of the DP lattice in log domain: either minus infinity
(an unreachable cell) or a finite real log-score. -/
inductive LogVal where
  | negInf : LogVal
  | fin (x : ℝ) : LogVal

/-- Add a finite log-score to a log-domain value; minus infinity absorbs. -/
def LogVal.addR : LogVal → ℝ → LogVal
  | .negInf, _ => .negInf
  | .fin a, r => .fin (a + r)

/-- `logaddexp` on log-domain values; minus infinity is the identity
(an unreachable path contributes nothing to the log-sum-exp). -/
noncomputable def logaddexp : LogVal → LogVal → LogVal
  | .negInf, b => b
  | a, .negInf => a
  | .fin a, .fin b => .fin (Real.log (Real.exp a + Real.exp b))

/-- Log of a nonnegative quantity, sending `0` (and junk negatives) to
minus infinity. -/
noncomputable def elog (x : ℝ) : LogVal :=
  if x ≤ 0 then .negInf else .fin (Real.log x)

/-- Modelled from the spec: the DP fill of `mutual_information_kernel` is
truncated out of the source (the file breaks mid-expression at the border
load), so the lattice recurrence is modelled from spec section 4.1, in
exp-space as the kernel's visible code computes (it exponentiates `px`/`py`
on load, uses `0.0` filler for unreachable values and a `1.0` origin seed):
`Q[0,0] = 1`, `Q[s,t] = Q[s-1,t]*X[s-1,t] + Q[s,t-1]*Y[s,t-1]`, where the
out-of-range term is dropped on the edges.  Indices are relative to the
boundary rectangle's origin. -/
def Qrel (X Y : ℕ → ℕ → ℝ) : ℕ → ℕ → ℝ
  | 0, 0 => 1
  | 0, t + 1 => Qrel X Y 0 t * Y 0 t
  | s + 1, 0 => Qrel X Y s 0 * X s 0
  | s + 1, t + 1 => Qrel X Y s (t + 1) * X s (t + 1) + Qrel X Y (s + 1) t * Y (s + 1) t

/-- A per-batch-element boundary rectangle `(s_begin, t_begin, s_end, t_end)`,
as read from row `b` of the `boundary` tensor (kernel lines 151-165). -/
structure Bounds where
  s_begin : ℤ
  t_begin : ℤ
  s_end : ℤ
  t_end : ℤ
  deriving DecidableEq

/-- Boundary resolution of kernel lines 151-165: an empty boundary tensor
means `s_end = S`, `t_end = T` (and no offset is added to the block begins,
i.e. `s_begin = t_begin = 0`); otherwise the four entries of row `b` are
used. -/
def resolveBounds (S T : ℕ) : Option Bounds → Bounds
  | none => ⟨0, 0, (S : ℤ), (T : ℤ)⟩
  | some bd => bd

/-- Whether lattice cell `(s, t)` lies inside the (closed) valid region of
boundary rectangle `bd`: the reachable cells of the `(S+1) x (T+1)` lattice. -/
def insideBounds (bd : Bounds) (s t : ℤ) : Prop :=
  bd.s_begin ≤ s ∧ s ≤ bd.s_end ∧ bd.t_begin ≤ t ∧ t ≤ bd.t_end

instance insideBounds.decidable (bd : Bounds) (s t : ℤ) :
    Decidable (insideBounds bd s t) := by
  unfold insideBounds; infer_instance

/-- The exp-space path sum of one batch element, with `Qrel` instantiated at
the exponentiated scores (the kernel loads `px_buf[s][t] = exp(px[...])`,
kernel lines 180-189); indices are relative to the rectangle origin. -/
noncomputable def latticeQ (px py : ℤ → ℤ → ℝ) (bd : Bounds) (a c : ℕ) : ℝ :=
  Qrel (fun a b => Real.exp (px (bd.s_begin + a) (bd.t_begin + b)))
       (fun a b => Real.exp (py (bd.s_begin + a) (bd.t_begin + b))) a c

/-- Modelled from the spec (the DP fill of the kernel is truncated out of the
source): the log-domain lattice `p` of one batch element.  Cells outside the
boundary rectangle are minus infinity; inside, the value is the log of the
exp-space path sum `latticeQ` taken over the exponentiated scores, which is
the computation the kernel's surviving preamble sets up. -/
noncomputable def pLattice (px py : ℤ → ℤ → ℝ) (bd : Bounds) (s t : ℤ) : LogVal :=
  if insideBounds bd s t then
    elog (latticeQ px py bd (s - bd.s_begin).toNat (t - bd.t_begin).toNat)
  else .negInf

/-- The boundary rectangle used for batch element `b`: row `b` of the
boundary tensor when present, else the default `(0, 0, S, T)`. -/
def forwardBounds (S T : ℕ) (boundary : Option (ℕ → Bounds)) (b : ℕ) : Bounds :=
  resolveBounds S T (Option.map (fun f => f b) boundary)

/-- Modelled from the spec: the batched forward operation
`forward(px, py, boundary) -> p` of spec section 4.1 (the host driver that
would launch `mutual_information_kernel` is absent from the source; the
present `mutual_information_cuda` launches an unrelated kernel).  `px b`,
`py b` are the score planes of batch element `b` and `boundary` is the
optional `(B, 4)` boundary tensor, one `Bounds` row per batch element. -/
noncomputable def mutualInformationForward (S T : ℕ) (px py : ℕ → ℤ → ℤ → ℝ)
    (boundary : Option (ℕ → Bounds)) (b : ℕ) (s t : ℤ) : LogVal :=
  pLattice (px b) (py b) (forwardBounds S T boundary b) s t

/-! ## Tile scheduling of `mutual_information_kernel` (kernel lines 104-174) -/

/-- Kernel line 117: `num_s_blocks = (S + BLOCK_S_SIZE - 1) / BLOCK_S_SIZE`. -/
def numSBlocks (S BS : ℕ) : ℕ := (S + BS - 1) / BS

/-- Kernel line 118: `num_t_blocks = (T + BLOCK_T_SIZE - 1) / BLOCK_T_SIZE`. -/
def numTBlocks (T BT : ℕ) : ℕ := (T + BT - 1) / BT

/-- Kernel line 127: `num_blocks_this_iter = min(iter + 1, num_s_blocks)`. -/
def numBlocksThisIter (iter nsb : ℕ) : ℕ := min (iter + 1) nsb

/-- Kernel line 146: `s_block_begin = block * BLOCK_S_SIZE` (before the
boundary offset is added). -/
def sBlockBegin0 (block BS : ℕ) : ℤ := (block : ℤ) * BS

/-- Kernel line 147: `t_block_begin = (iter - block) * BLOCK_T_SIZE` (before
the boundary offset is added). -/
def tBlockBegin0 (iter block BT : ℕ) : ℤ := ((iter : ℤ) - block) * BT

/-- Kernel line 149, literal: `is_origin_block = (s_block_begin * t_block_begin == 0)`
on the pre-offset block begins, i.e. true for every tile in block-row 0 or
block-column 0, not only for the tile containing the origin. -/
def isOriginBlockCode (sbb tbb : ℤ) : Bool := sbb * tbb == 0

/-- Kernel lines 151-165: with a boundary tensor present, `s_begin` is added
to `s_block_begin`; with an empty boundary nothing is added. -/
def adjSBlockBegin (bd : Option Bounds) (sbb0 : ℤ) : ℤ :=
  match bd with
  | none => sbb0
  | some b => sbb0 + b.s_begin

/-- Kernel lines 151-165: with a boundary tensor present, `t_begin` is added
to `t_block_begin`; with an empty boundary nothing is added. -/
def adjTBlockBegin (bd : Option Bounds) (tbb0 : ℤ) : ℤ :=
  match bd with
  | none => tbb0
  | some b => tbb0 + b.t_begin

/-- Kernel line 170, literal: `block_S = min(BLOCK_T_SIZE, s_end - s_block_begin)`.
Note the source really uses BLOCK_T_SIZE here, although its own comment at
lines 167-169 says the size is "up to (BLOCK_S_SIZE, BLOCK_T_SIZE)". -/
def blockSCode (BT : ℕ) (sEnd sbb : ℤ) : ℤ := min (BT : ℤ) (sEnd - sbb)

/-- Kernel line 171, literal: `block_T = min(BLOCK_S_SIZE, t_end - t_block_begin)`. -/
def blockTCode (BS : ℕ) (tEnd tbb : ℤ) : ℤ := min (BS : ℤ) (tEnd - tbb)

/-- Kernel lines 173-174: the `(iter, block)` unit performs work unless its
truncated extent is empty in either direction (`continue`). -/
def tileDoesWork (S T BS BT : ℕ) (bd : Option Bounds) (iter block : ℕ) : Bool :=
  let r := resolveBounds S T bd
  let sbb := adjSBlockBegin bd (sBlockBegin0 block BS)
  let tbb := adjTBlockBegin bd (tBlockBegin0 iter block BT)
  decide (0 < blockSCode BT r.s_end sbb) && decide (0 < blockTCode BS r.t_end tbb)

/-- Kernel lines 127 and 140-174: tile `(sIdx, tIdx)` is active (does work) at
iteration `iter` iff the launch loop enumerates it — its anti-diagonal is
`iter` and `sIdx < min(iter + 1, num_s_blocks)` — and lines 173-174 do not
`continue` it away. -/
def activeTile (S T BS BT : ℕ) (bd : Option Bounds) (iter sIdx tIdx : ℕ) : Bool :=
  (sIdx + tIdx == iter) && decide (sIdx < numBlocksThisIter iter (numSBlocks S BS)) &&
    tileDoesWork S T BS BT bd iter sIdx

/-- Modelled from the spec: the sequential launch loop that drives
`mutual_information_kernel` is absent from the source (only the comment at
kernel lines 104-106 refers to it); the spec fixes the number of sequential
iterations at `num_s_blocks + num_t_blocks - 1`. -/
def numIterations (S T BS BT : ℕ) : ℕ := numSBlocks S BS + numTBlocks T BT - 1

/-! ## Border import of `mutual_information_kernel` (kernel lines 191-215) -/

/-- The guard of kernel lines 197-198 and 208-209:
`static_cast<unsigned>(x) < static_cast<unsigned>(bound)` for an in-range
positive `bound`, i.e. `0 <= x` and `x < bound`. -/
def inRangeU (x bound : ℤ) : Bool := decide (0 ≤ x) && decide (x < bound)

/-- Kernel lines 204-214, literal, with only the truncated ternary
`(is_origin_block && i == 1 ? 1.0 /` ... `-infinity;` completed to
`? 1.0 : -infinity`: the value imported into the top-border cell `p_buf[0][i]`
of a tile.  `p` is the lattice the guarded branch reads (the source also
passes `s + t_block_begin` instead of `t + t_block_begin` as the second
index; we keep that literal). -/
def topBorderValue (p : ℤ → ℤ → LogVal) (sbb tbb blockS blockT : ℤ)
    (isOrigin : Bool) (i : ℤ) : LogVal :=
  let t := i - 1
  let s := (-1 : ℤ)
  if inRangeU (s + sbb) blockS && inRangeU (t + tbb) blockT then
    p (s + sbb) (s + tbb)
  else if isOrigin && i == 1 then .fin 1
  else .negInf

/-- Whether lattice cell `(si, ti)` lies inside the tile whose begins are
`(sbb, tbb)` and whose nominal sizes are `(BS, BT)`. -/
def tileContains (BS BT : ℕ) (sbb tbb si ti : ℤ) : Bool :=
  decide (sbb ≤ si) && decide (si < sbb + BS) &&
    decide (tbb ≤ ti) && decide (ti < tbb + BT)

/-! ## Host entry points (source lines 673-838) -/

/-- Device placement of a tensor operand. -/
inductive Device where
  | cpu : Device
  | cuda (index : ℕ) : Device
  deriving DecidableEq

/-- `t.device().is_cuda()`. -/
def Device.isCuda : Device → Bool
  | .cuda _ => true
  | .cpu => false

/-- Shape-and-device metadata of a tensor operand — the part of the tensor
store that the entry points validate. -/
structure TensorMeta where
  dims : List ℕ
  device : Device
  deriving DecidableEq

/-- `t.size(i)`; the entry points call it only after checking the rank. -/
def TensorMeta.size (t : TensorMeta) (i : ℕ) : ℕ := t.dims.getD i 0

/-- Host lines 678-680 and 753-755, literal: `params.size(1) >= 3` and
`((params.size(1) - 1) & (params.size(1) - 2)) == 0`. -/
def paramsSizeCheck (sz : ℕ) : Bool :=
  decide (3 ≤ sz) && ((sz - 1) &&& (sz - 2) == 0)

/-- The loop of host lines 701-703: `images_per_thread_block` doubles while
`ipb * 2 * T <= THREADS_PER_BLOCK`.  Fuel-indexed; the host runs it only on
nonempty tensors, where fuel `TPB` is more than enough. -/
def ipbLoopF (TPB T : ℕ) : ℕ → ℕ → ℕ
  | 0, ipb => ipb
  | fuel + 1, ipb => if ipb * 2 * T ≤ TPB then ipbLoopF TPB T fuel (ipb * 2) else ipb

/-- `images_per_thread_block` as computed by the forward entry point. -/
def imagesPerThreadBlockF (TPB T : ℕ) : ℕ := ipbLoopF TPB T TPB 1

/-- The loop of host lines 787-790 (backward): doubles while both
`ipb * 2 * T <= TPB` and `ipb * 2 * N <= TPB`. -/
def ipbLoopB (TPB T N : ℕ) : ℕ → ℕ → ℕ
  | 0, ipb => ipb
  | fuel + 1, ipb =>
    if ipb * 2 * T ≤ TPB ∧ ipb * 2 * N ≤ TPB then ipbLoopB TPB T N fuel (ipb * 2)
    else ipb

/-- `images_per_thread_block` as computed by the backward entry point. -/
def imagesPerThreadBlockB (TPB T N : ℕ) : ℕ := ipbLoopB TPB T N TPB 1

/-- The loop of host lines 705-709 and 792-796: `grid_dim_y` doubles while
`C * grid_dim_y < 128`.  Fuel-indexed; the host reaches it only with
`C >= 1`, where fuel 128 is more than enough. -/
def gdyLoop (C : ℕ) : ℕ → ℕ → ℕ
  | 0, g => g
  | fuel + 1, g => if C * g < 128 then gdyLoop C fuel (g * 2) else g

/-- Host lines 705-716 and 792-803: `grid_dim_y`, capped at
`B_reduced = ceil(B / images_per_thread_block)`. -/
def gridDimY (B C ipb : ℕ) : ℕ :=
  let g := gdyLoop C 128 1
  let bReduced := (B + ipb - 1) / ipb
  if bReduced < g then bReduced else g

/-- Outcome of a successful forward entry-point call: metadata of the
returned tensor and whether a kernel launch was issued. -/
structure ForwardOutcome where
  outDims : List ℕ
  outDevice : Device
  launched : Bool
  deriving DecidableEq

/-- Host function `mutual_information_cuda` (source lines 673-744), check for
check in source order.  `TPB` stands for the compile-time constant
`THREADS_PER_BLOCK`, which is defined outside this file. -/
def mutualInformationCuda (TPB : ℕ) (input params : TensorMeta) :
    Except String ForwardOutcome :=
  -- B = input.size 0, C = input.size 1, T = input.size 2, N = params.size 1 - 1
  if input.dims.length = 3 then
    if params.dims.length = 2 then
      if paramsSizeCheck (params.size 1) = true then
        if params.size 0 = input.size 1 then
          if input.device.isCuda = true then
            if params.device.isCuda = true then
              if input.size 1 * input.size 0 * input.size 2 = 0 then
                .ok ⟨[input.size 0, input.size 1, input.size 2], input.device, false⟩
              else
                if input.size 2 ≤ TPB / imagesPerThreadBlockF TPB (input.size 2) ∨
                    imagesPerThreadBlockF TPB (input.size 2) = 1 then
                  if params.size 1 - 1 + 1 ≤ TPB then
                    .ok ⟨[input.size 0, input.size 1, input.size 2],
                         input.device, true⟩
                  else .error "Values of N this large are not supported."
                else .error "Code error"
            else .error "Params must be a CUDA tensor"
          else .error "Input must be a CUDA tensor"
        else .error "params vs input channels mismatch"
      else .error "params.size(1) has invalid value, must be a power of 2 plus 1."
    else .error "params must be 2-dimensional."
  else .error "input must be 3-dimensional"

/-- Outcome of a successful backward entry-point call.  `paramsGrad c n` is
the entry at channel `c`, column `n` of the returned parameter gradient. -/
structure BackwardOutcome where
  inputGradDims : List ℕ
  paramsGradDims : List ℕ
  paramsGrad : ℕ → ℕ → ℝ
  launched : Bool

/-- `at::sum(params_grad, {0})` of host line 836: reduce the per-thread-group
partial sums over the leading dimension of a `(G, C, N+1)` tensor. -/
def sumDim0 (G : ℕ) (g : ℕ → ℕ → ℕ → ℝ) : ℕ → ℕ → ℝ :=
  fun c n => ∑ y ∈ Finset.range G, g y c n

/-- The eleven `TORCH_CHECK` validations of host lines 751-774, in source
order: the message of the first failing check, or `none` when all pass.
`N = params.size 1 - 1`. -/
def backwardPrecheckError (input params outputGrad : TensorMeta) : Option String :=
  if input.dims.length = 3 then
    if params.dims.length = 2 then
      if paramsSizeCheck (params.size 1) = true then
        if params.size 0 = input.size 1 then
          if outputGrad.dims.length = 3 ∧ outputGrad.size 0 = input.size 0 ∧
              outputGrad.size 1 = input.size 1 ∧
              outputGrad.size 2 = input.size 2 then
            if input.device.isCuda = true then
              if outputGrad.device.isCuda = true then
                if params.device.isCuda = true then
                  if 4 ≤ params.size 1 - 1 then
                    if params.size 1 - 1 ≤ 16 then
                      if (params.size 1 - 1) &&& (params.size 1 - 1 - 1) = 0 then
                        none
                      else some "N must be a power of 2"
                    else some "This backward code currently requires N <= 16"
                  else some "This backward code requires N >= 4"
                else some "Params must be a CUDA tensor"
              else some "output_grad must be a CUDA tensor"
            else some "Input must be a CUDA tensor"
          else some "output_grad and input have mismatched dim."
        else some "params vs input channels mismatch"
      else some "params.size(1) has invalid value, must be a power of 2 plus 1."
    else some "params must be 2-dimensional."
  else some "input must be 3-dimensional"

/-- The two capacity checks of host lines 815-819, issued only on a nonempty
input after `images_per_thread_block` is computed: the `"Code error"` check
and the (message-less) `TPB / ipb >= N` check. -/
def backwardCapacityError (TPB : ℕ) (input params : TensorMeta) : Option String :=
  if input.size 2 ≤ TPB / imagesPerThreadBlockB TPB (input.size 2)
        (params.size 1 - 1) ∨
      imagesPerThreadBlockB TPB (input.size 2) (params.size 1 - 1) = 1 then
    if params.size 1 - 1 ≤
        TPB / imagesPerThreadBlockB TPB (input.size 2) (params.size 1 - 1) then
      none
    else some ""
  else some "Code error"

/-- Host function `mutual_information_backward_cuda` (source lines 748-838).
`TPB` models `THREADS_PER_BLOCK`; `g y c n` models the partial
parameter-gradient sum that thread group `y` writes into
`params_grad[blockIdx.y][c][n]` (kernel lines 665-667); the host allocates
that tensor as `zeros({grid_dim_y, C, N + 1})` and reduces it after the
kernel returns with `at::sum(params_grad, {0})`.
`B = input.size 0`, `C = input.size 1`, `T = input.size 2`. -/
def mutualInformationBackwardCuda (TPB : ℕ) (input params outputGrad : TensorMeta)
    (g : ℕ → ℕ → ℕ → ℝ) : Except String BackwardOutcome :=
  match backwardPrecheckError input params outputGrad with
  | some m => .error m
  | none =>
    if input.size 1 * input.size 0 * input.size 2 = 0 then
      .ok ⟨[input.size 0, input.size 1, input.size 2],
           [input.size 1, params.size 1 - 1 + 1], fun _ _ => 0, false⟩
    else
      match backwardCapacityError TPB input params with
      | some m => .error m
      | none =>
        .ok ⟨[input.size 0, input.size 1, input.size 2],
             [input.size 1, params.size 1 - 1 + 1],
             sumDim0 (gridDimY (input.size 0) (input.size 1)
               (imagesPerThreadBlockB TPB (input.size 2) (params.size 1 - 1))) g,
             true⟩

/-! ## Supporting lemmas -/

theorem logaddexp_negInf_right (a : LogVal) : logaddexp a .negInf = a := by
  cases a <;> rfl

theorem Qrel_pos (X Y : ℕ → ℕ → ℝ) (hX : ∀ a b, 0 < X a b)
    (hY : ∀ a b, 0 < Y a b) : ∀ s t, 0 < Qrel X Y s t := by
  have key : ∀ n s t, s + t ≤ n → 0 < Qrel X Y s t := by
    intro n
    induction n with
    | zero =>
      intro s t h
      obtain ⟨rfl, rfl⟩ : s = 0 ∧ t = 0 := by omega
      simp [Qrel]
    | succ n ih =>
      intro s t h
      match s, t with
      | 0, 0 => simp [Qrel]
      | 0, t + 1 =>
        have h0 := ih 0 t (by omega)
        simpa [Qrel] using mul_pos h0 (hY 0 t)
      | s + 1, 0 =>
        have h0 := ih s 0 (by omega)
        simpa [Qrel] using mul_pos h0 (hX s 0)
      | s + 1, t + 1 =>
        have h1 := mul_pos (ih s (t + 1) (by omega)) (hX s (t + 1))
        have h2 := mul_pos (ih (s + 1) t (by omega)) (hY (s + 1) t)
        simpa [Qrel] using add_pos h1 h2
  intro s t
  exact key (s + t) s t le_rfl

theorem latticeQ_pos (px py : ℤ → ℤ → ℝ) (bd : Bounds) (a c : ℕ) :
    0 < latticeQ px py bd a c :=
  Qrel_pos _ _ (fun _ _ => Real.exp_pos _) (fun _ _ => Real.exp_pos _) a c

theorem latticeQ_zero_zero (px py : ℤ → ℤ → ℝ) (bd : Bounds) :
    latticeQ px py bd 0 0 = 1 := by
  simp [latticeQ, Qrel]

theorem latticeQ_succ_zero (px py : ℤ → ℤ → ℝ) (bd : Bounds) (a : ℕ) :
    latticeQ px py bd (a + 1) 0 =
      latticeQ px py bd a 0 * Real.exp (px (bd.s_begin + a) (bd.t_begin + 0)) := by
  simp [latticeQ, Qrel]

theorem latticeQ_zero_succ (px py : ℤ → ℤ → ℝ) (bd : Bounds) (c : ℕ) :
    latticeQ px py bd 0 (c + 1) =
      latticeQ px py bd 0 c * Real.exp (py (bd.s_begin + 0) (bd.t_begin + c)) := by
  simp [latticeQ, Qrel]

theorem latticeQ_succ_succ (px py : ℤ → ℤ → ℝ) (bd : Bounds) (a c : ℕ) :
    latticeQ px py bd (a + 1) (c + 1) =
      latticeQ px py bd a (c + 1) *
          Real.exp (px (bd.s_begin + a) (bd.t_begin + (c + 1)))
      + latticeQ px py bd (a + 1) c *
          Real.exp (py (bd.s_begin + (a + 1)) (bd.t_begin + c)) := by
  simp [latticeQ, Qrel]

theorem elog_pos_fin {x : ℝ} (hx : 0 < x) : elog x = .fin (Real.log x) := by
  simp [elog, not_le.mpr hx]

theorem elog_mul_exp {x : ℝ} (hx : 0 < x) (r : ℝ) :
    elog (x * Real.exp r) = (elog x).addR r := by
  rw [elog_pos_fin (mul_pos hx (Real.exp_pos r)), elog_pos_fin hx]
  simp [LogVal.addR, Real.log_mul (ne_of_gt hx) (Real.exp_ne_zero r), Real.log_exp]

theorem elog_add_pos {x y : ℝ} (hx : 0 < x) (hy : 0 < y) :
    elog (x + y) = logaddexp (elog x) (elog y) := by
  rw [elog_pos_fin (add_pos hx hy), elog_pos_fin hx, elog_pos_fin hy]
  simp [logaddexp, Real.exp_log hx, Real.exp_log hy]

theorem pLattice_inside (px py : ℤ → ℤ → ℝ) (bd : Bounds) {s t : ℤ}
    (h : insideBounds bd s t) :
    pLattice px py bd s t =
      elog (latticeQ px py bd (s - bd.s_begin).toNat (t - bd.t_begin).toNat) :=
  if_pos h

theorem pLattice_outside (px py : ℤ → ℤ → ℝ) (bd : Bounds) {s t : ℤ}
    (h : ¬ insideBounds bd s t) :
    pLattice px py bd s t = .negInf :=
  if_neg h

theorem pLattice_step (px py : ℤ → ℤ → ℝ) (bd : Bounds) (s t : ℤ)
    (hin : insideBounds bd s t)
    (hno : ¬ (s = bd.s_begin ∧ t = bd.t_begin)) :
    pLattice px py bd s t =
      logaddexp ((pLattice px py bd (s - 1) t).addR (px (s - 1) t))
                ((pLattice px py bd s (t - 1)).addR (py s (t - 1))) := by
  obtain ⟨hsb, hse, htb, hte⟩ := hin
  have hself : insideBounds bd s t := ⟨hsb, hse, htb, hte⟩
  rcases eq_or_lt_of_le hsb with hs | hs
  · rcases eq_or_lt_of_le htb with ht | ht
    · exact absurd ⟨hs.symm, ht.symm⟩ hno
    · -- s = s_begin and t > t_begin: the vertical neighbor lies outside
      have hup : ¬ insideBounds bd (s - 1) t := by
        simp only [insideBounds, not_and_or]
        left; omega
      have hleft : insideBounds bd s (t - 1) := ⟨hsb, hse, by omega, by omega⟩
      rw [pLattice_outside px py bd hup, pLattice_inside px py bd hself,
          pLattice_inside px py bd hleft]
      have ea : (s - bd.s_begin).toNat = 0 := by omega
      have ec : (t - bd.t_begin).toNat = (t - 1 - bd.t_begin).toNat + 1 := by omega
      rw [ea, ec, latticeQ_zero_succ, elog_mul_exp (latticeQ_pos px py bd 0 _)]
      have e1 : bd.s_begin + (0 : ℤ) = s := by omega
      have e2 : bd.t_begin + (((t - 1 - bd.t_begin).toNat : ℤ)) = t - 1 := by omega
      rw [e1, e2]
      simp only [LogVal.addR, logaddexp]
  · rcases eq_or_lt_of_le htb with ht | ht
    · -- t = t_begin and s > s_begin: the horizontal neighbor lies outside
      have hleft : ¬ insideBounds bd s (t - 1) := by
        simp only [insideBounds, not_and_or]
        right; right; left; omega
      have hup : insideBounds bd (s - 1) t := ⟨by omega, by omega, htb, hte⟩
      rw [pLattice_outside px py bd hleft, pLattice_inside px py bd hself,
          pLattice_inside px py bd hup]
      have ea : (s - bd.s_begin).toNat = (s - 1 - bd.s_begin).toNat + 1 := by omega
      have ec : (t - bd.t_begin).toNat = 0 := by omega
      rw [ea, ec, latticeQ_succ_zero, elog_mul_exp (latticeQ_pos px py bd _ 0)]
      have e1 : bd.s_begin + (((s - 1 - bd.s_begin).toNat : ℤ)) = s - 1 := by omega
      have e2 : bd.t_begin + (0 : ℤ) = t := by omega
      rw [e1, e2]
      simp only [LogVal.addR, logaddexp_negInf_right]
    · -- interior cell: both neighbors are inside
      have hup : insideBounds bd (s - 1) t := ⟨by omega, by omega, htb, hte⟩
      have hleft : insideBounds bd s (t - 1) := ⟨hsb, hse, by omega, by omega⟩
      rw [pLattice_inside px py bd hself, pLattice_inside px py bd hup,
          pLattice_inside px py bd hleft]
      have ea : (s - bd.s_begin).toNat = (s - 1 - bd.s_begin).toNat + 1 := by omega
      have ec : (t - bd.t_begin).toNat = (t - 1 - bd.t_begin).toNat + 1 := by omega
      rw [ea, ec, latticeQ_succ_succ,
          elog_add_pos (mul_pos (latticeQ_pos px py bd _ _) (Real.exp_pos _))
            (mul_pos (latticeQ_pos px py bd _ _) (Real.exp_pos _)),
          elog_mul_exp (latticeQ_pos px py bd _ _),
          elog_mul_exp (latticeQ_pos px py bd _ _)]
      have e1 : bd.s_begin + (((s - 1 - bd.s_begin).toNat : ℤ)) = s - 1 := by omega
      have e2 : bd.t_begin + ((((t - 1 - bd.t_begin).toNat : ℤ)) + 1) = t := by omega
      have e3 : bd.s_begin + ((((s - 1 - bd.s_begin).toNat : ℤ)) + 1) = s := by omega
      have e4 : bd.t_begin + (((t - 1 - bd.t_begin).toNat : ℤ)) = t - 1 := by omega
      rw [e1, e2, e3, e4]

/-! ## Claim theorems -/

/-- C1: for every batch element `b` with valid inputs, the forward operation
(`px`, `py` of shape `(B, S, T)`, optional boundary of shape `(B, 4)`,
result lattice of shape `(B, S+1, T+1)`) satisfies
`p[s,t] = logaddexp(p[s-1,t] + px[s-1,t], p[s,t-1] + py[s,t-1])` at every
`(s, t)` inside the batch element's boundary rectangle other than the
rectangle origin; the origin carries the boundary value `0` (on a nonempty
rectangle), every cell outside the rectangle is minus infinity, and at
rectangle-edge cells the out-of-rectangle neighbor term is minus infinity
and drops out of the `logaddexp`. -/
theorem c1_forward_recurrence (S T : ℕ) (px py : ℕ → ℤ → ℤ → ℝ)
    (boundary : Option (ℕ → Bounds)) (b : ℕ) (s t : ℤ) :
    (insideBounds (forwardBounds S T boundary b) s t →
      ¬ (s = (forwardBounds S T boundary b).s_begin ∧
         t = (forwardBounds S T boundary b).t_begin) →
      mutualInformationForward S T px py boundary b s t =
        logaddexp
          ((mutualInformationForward S T px py boundary b (s - 1) t).addR
            (px b (s - 1) t))
          ((mutualInformationForward S T px py boundary b s (t - 1)).addR
            (py b s (t - 1)))) ∧
    ((forwardBounds S T boundary b).s_begin ≤ (forwardBounds S T boundary b).s_end →
      (forwardBounds S T boundary b).t_begin ≤ (forwardBounds S T boundary b).t_end →
      mutualInformationForward S T px py boundary b
        (forwardBounds S T boundary b).s_begin
        (forwardBounds S T boundary b).t_begin = .fin 0) ∧
    (¬ insideBounds (forwardBounds S T boundary b) s t →
      mutualInformationForward S T px py boundary b s t = .negInf) := by
  refine ⟨?_, ?_, ?_⟩
  · intro hin hno
    exact pLattice_step (px b) (py b) (forwardBounds S T boundary b) s t hin hno
  · intro h1 h2
    have hin : insideBounds (forwardBounds S T boundary b)
        (forwardBounds S T boundary b).s_begin
        (forwardBounds S T boundary b).t_begin := ⟨le_refl _, h1, le_refl _, h2⟩
    show pLattice (px b) (py b) (forwardBounds S T boundary b) _ _ = _
    rw [pLattice_inside _ _ _ hin]
    simp only [sub_self, Int.toNat_zero, latticeQ_zero_zero]
    norm_num [elog, Real.log_one]
  · intro h
    exact pLattice_outside (px b) (py b) _ h

/-- Witness for C1 at `S = T = 2`, all-zero scores, empty boundary,
cell `(1, 1)`. -/
theorem c1_forward_recurrence_witness :
    mutualInformationForward 2 2 (fun _ _ _ => (0 : ℝ)) (fun _ _ _ => (0 : ℝ))
        none 0 1 1 =
      logaddexp
        ((mutualInformationForward 2 2 (fun _ _ _ => (0 : ℝ)) (fun _ _ _ => (0 : ℝ))
            none 0 (1 - 1) 1).addR 0)
        ((mutualInformationForward 2 2 (fun _ _ _ => (0 : ℝ)) (fun _ _ _ => (0 : ℝ))
            none 0 1 (1 - 1)).addR 0) :=
  (c1_forward_recurrence 2 2 _ _ none 0 1 1).1 (by decide) (by decide)

/-- C2: at `B = 1`, `S = T = 2`, empty boundary and all-zero scores, the
forward lattice has `p[0,0] = 0`, `p[1,0] = 0`, `p[0,1] = 0` and
`p[1,1] = logaddexp(0, 0) = ln 2` exactly. -/
theorem c2_golden_numeric :
    mutualInformationForward 2 2 (fun _ _ _ => (0 : ℝ)) (fun _ _ _ => (0 : ℝ))
        none 0 0 0 = .fin 0 ∧
    mutualInformationForward 2 2 (fun _ _ _ => (0 : ℝ)) (fun _ _ _ => (0 : ℝ))
        none 0 1 0 = .fin 0 ∧
    mutualInformationForward 2 2 (fun _ _ _ => (0 : ℝ)) (fun _ _ _ => (0 : ℝ))
        none 0 0 1 = .fin 0 ∧
    mutualInformationForward 2 2 (fun _ _ _ => (0 : ℝ)) (fun _ _ _ => (0 : ℝ))
        none 0 1 1 = .fin (Real.log 2) ∧
    logaddexp (.fin 0) (.fin 0) = .fin (Real.log 2) := by
  have hbd : forwardBounds 2 2 none 0 = ⟨0, 0, 2, 2⟩ := rfl
  set zf : ℕ → ℤ → ℤ → ℝ := fun _ _ _ => (0 : ℝ) with hzf
  have h00 : latticeQ (zf 0) (zf 0) ⟨0, 0, 2, 2⟩ 0 0 = 1 := latticeQ_zero_zero _ _ _
  have h10 : latticeQ (zf 0) (zf 0) ⟨0, 0, 2, 2⟩ (0 + 1) 0 = 1 := by
    rw [latticeQ_succ_zero, latticeQ_zero_zero]
    simp [hzf, Real.exp_zero]
  have h01 : latticeQ (zf 0) (zf 0) ⟨0, 0, 2, 2⟩ 0 (0 + 1) = 1 := by
    rw [latticeQ_zero_succ, latticeQ_zero_zero]
    simp [hzf, Real.exp_zero]
  have h11 : latticeQ (zf 0) (zf 0) ⟨0, 0, 2, 2⟩ (0 + 1) (0 + 1) = 2 := by
    rw [latticeQ_succ_succ, h10, h01]
    simp [hzf, Real.exp_zero]
    norm_num
  refine ⟨?_, ?_, ?_, ?_, ?_⟩
  · show pLattice (zf 0) (zf 0) (forwardBounds 2 2 none 0) 0 0 = _
    rw [hbd, pLattice_inside _ _ _ (by decide)]
    norm_num [h00, elog, Real.log_one]
  · show pLattice (zf 0) (zf 0) (forwardBounds 2 2 none 0) 1 0 = _
    rw [hbd, pLattice_inside _ _ _ (by decide)]
    show elog (latticeQ (zf 0) (zf 0) ⟨0, 0, 2, 2⟩ (0 + 1) 0) = _
    rw [h10]
    norm_num [elog, Real.log_one]
  · show pLattice (zf 0) (zf 0) (forwardBounds 2 2 none 0) 0 1 = _
    rw [hbd, pLattice_inside _ _ _ (by decide)]
    show elog (latticeQ (zf 0) (zf 0) ⟨0, 0, 2, 2⟩ 0 (0 + 1)) = _
    rw [h01]
    norm_num [elog, Real.log_one]
  · show pLattice (zf 0) (zf 0) (forwardBounds 2 2 none 0) 1 1 = _
    rw [hbd, pLattice_inside _ _ _ (by decide)]
    show elog (latticeQ (zf 0) (zf 0) ⟨0, 0, 2, 2⟩ (0 + 1) (0 + 1)) = _
    rw [h11]
    norm_num [elog]
  · show logaddexp (.fin 0) (.fin 0) = _
    simp [logaddexp, Real.exp_zero]
    norm_num

/-- C6: calling forward with an empty boundary buffer gives, for every batch
element and lattice cell, the identical result to calling it with the
explicit boundary `(0, 0, S, T)`; the same holds for the kernel's per-tile
work decision and active-tile predicate. -/
theorem c6_boundary_default_equiv (S T BS BT : ℕ) (px py : ℕ → ℤ → ℤ → ℝ) :
    (∀ b s t, mutualInformationForward S T px py none b s t =
      mutualInformationForward S T px py
        (some fun _ => ⟨0, 0, (S : ℤ), (T : ℤ)⟩) b s t) ∧
    (∀ iter block, tileDoesWork S T BS BT none iter block =
      tileDoesWork S T BS BT (some ⟨0, 0, (S : ℤ), (T : ℤ)⟩) iter block) ∧
    (∀ iter sIdx tIdx, activeTile S T BS BT none iter sIdx tIdx =
      activeTile S T BS BT (some ⟨0, 0, (S : ℤ), (T : ℤ)⟩) iter sIdx tIdx) := by
  have hW : ∀ iter block, tileDoesWork S T BS BT none iter block =
      tileDoesWork S T BS BT (some ⟨0, 0, (S : ℤ), (T : ℤ)⟩) iter block := by
    intro iter block
    simp [tileDoesWork, adjSBlockBegin, adjTBlockBegin, resolveBounds, add_zero]
  refine ⟨fun b s t => rfl, hW, ?_⟩
  intro iter sIdx tIdx
  simp only [activeTile, hW]

theorem mul_lt_iff_lt_ceilDiv (x S BS : ℕ) (hBS : 0 < BS) :
    x * BS < S ↔ x < (S + BS - 1) / BS := by
  constructor
  · intro h
    rw [Nat.lt_iff_add_one_le, Nat.le_div_iff_mul_le hBS]
    have e : (x + 1) * BS = x * BS + BS := by ring
    omega
  · intro h
    rw [Nat.lt_iff_add_one_le, Nat.le_div_iff_mul_le hBS] at h
    have e : (x + 1) * BS = x * BS + BS := by ring
    omega

theorem pow_two_of_land_pred : ∀ n, 1 ≤ n → n &&& (n - 1) = 0 → ∃ k, n = 2 ^ k := by
  intro n
  induction n using Nat.strong_induction_on with
  | _ n ih =>
    intro h1 h2
    rcases Nat.even_or_odd n with he | ho
    · obtain ⟨m, hm⟩ := he
      have hm2 : n = 2 * m := by omega
      have hmpos : 1 ≤ m := by omega
      have key : m &&& (m - 1) = 0 := by
        apply Nat.eq_of_testBit_eq
        intro i
        have hstep := congrArg (fun x => Nat.testBit x (i + 1)) h2
        simp only [Nat.testBit_land, Nat.zero_testBit] at hstep
        rw [Nat.testBit_add_one, Nat.testBit_add_one] at hstep
        have e1 : n / 2 = m := by omega
        have e2 : (n - 1) / 2 = m - 1 := by omega
        rw [e1, e2] at hstep
        simp only [Nat.testBit_land, Nat.zero_testBit]
        exact hstep
      obtain ⟨k, hk⟩ := ih m (by omega) hmpos key
      refine ⟨k + 1, ?_⟩
      rw [hm2, hk]
      ring
    · rcases eq_or_lt_of_le h1 with h | h
      · exact ⟨0, by omega⟩
      · exfalso
        obtain ⟨m, hm⟩ := ho
        have hmpos : 1 ≤ m := by omega
        have hbit : ∃ j, m.testBit j = true := by
          by_contra hno
          push_neg at hno
          have hz : m = 0 := Nat.eq_of_testBit_eq fun j => by
            have hj := hno j
            revert hj
            cases m.testBit j <;> simp [Nat.zero_testBit]
          omega
        obtain ⟨j, hj⟩ := hbit
        have hstep := congrArg (fun x => Nat.testBit x (j + 1)) h2
        simp only [Nat.testBit_land, Nat.zero_testBit] at hstep
        rw [Nat.testBit_add_one, Nat.testBit_add_one] at hstep
        have e1 : n / 2 = m := by omega
        have e2 : (n - 1) / 2 = m := by omega
        rw [e1, e2, hj] at hstep
        simp at hstep

theorem ipbLoopF_inv (TPB T : ℕ) :
    ∀ fuel ipb, 0 < ipb → (ipb = 1 ∨ ipb * T ≤ TPB) →
      0 < ipbLoopF TPB T fuel ipb ∧
        (ipbLoopF TPB T fuel ipb = 1 ∨ ipbLoopF TPB T fuel ipb * T ≤ TPB) := by
  intro fuel
  induction fuel with
  | zero => intro ipb h1 h2; exact ⟨h1, h2⟩
  | succ n ih =>
    intro ipb h1 h2
    simp only [ipbLoopF]
    split
    · rename_i hc
      exact ih (ipb * 2) (by omega) (Or.inr hc)
    · exact ⟨h1, h2⟩

theorem forwardCodeCheck_holds (TPB T : ℕ) :
    T ≤ TPB / imagesPerThreadBlockF TPB T ∨ imagesPerThreadBlockF TPB T = 1 := by
  obtain ⟨hpos, h⟩ := ipbLoopF_inv TPB T TPB 1 one_pos (Or.inl rfl)
  rcases h with h | h
  · exact Or.inr h
  · refine Or.inl ((Nat.le_div_iff_mul_le hpos).mpr ?_)
    rw [mul_comm]
    exact h

theorem dims_eq_of_rank3_sizes (a b : List ℕ) (ha : a.length = 3) (hb : b.length = 3)
    (h0 : b.getD 0 0 = a.getD 0 0) (h1 : b.getD 1 0 = a.getD 1 0)
    (h2 : b.getD 2 0 = a.getD 2 0) : b = a := by
  obtain ⟨x, y, z, rfl⟩ := List.length_eq_three.mp ha
  obtain ⟨u, v, w, rfl⟩ := List.length_eq_three.mp hb
  simp_all

/-- C3 counterexample: with boundary rectangle `(0, 0, 1, 1)`, `S = T = 8` and
tile sizes `(4, 4)`, tile `(1, 0)` at iteration 1 satisfies the claim's
conditions (`s_block_index + t_block_index = iter`, `s_block_index <
num_s_blocks`, `t_block_index < num_t_blocks`) yet performs no work — the
claimed activity condition ignores the boundary-rectangle restriction. -/
theorem c3_counterexample :
    activeTile 8 8 4 4 (some ⟨0, 0, 1, 1⟩) 1 1 0 = false ∧
    1 + 0 = 1 ∧ 1 < numSBlocks 8 4 ∧ 0 < numTBlocks 8 4 := by decide

/-- C3 amended: the forward pass runs `num_s_blocks + num_t_blocks - 1`
sequential iterations; at iteration `k`, for any boundary, exactly the tiles
with `s_block_index + t_block_index = k` and `s_block_index < num_s_blocks`
whose boundary-offset block begins lie inside the batch element's rectangle
(`s_block_begin < s_end` and `t_block_begin < t_end`) are active, and all
other units perform no work.  With an empty boundary this activity condition
is equivalent to the claim's `s_block_index < num_s_blocks` and
`t_block_index < num_t_blocks`, and the iterations with at least one active
tile are exactly `0 .. num_s_blocks + num_t_blocks - 2`. -/
theorem c3_amended_wavefront (S T BS BT : ℕ) (hS : 0 < S) (hT : 0 < T)
    (hBS : 0 < BS) (hBT : 0 < BT) :
    numIterations S T BS BT = numSBlocks S BS + numTBlocks T BT - 1 ∧
    (∀ bd iter sIdx tIdx, activeTile S T BS BT bd iter sIdx tIdx = true ↔
      (sIdx + tIdx = iter ∧ sIdx < numSBlocks S BS ∧
       (sIdx : ℤ) * BS + (resolveBounds S T bd).s_begin <
         (resolveBounds S T bd).s_end ∧
       (tIdx : ℤ) * BT + (resolveBounds S T bd).t_begin <
         (resolveBounds S T bd).t_end)) ∧
    (∀ iter sIdx tIdx, activeTile S T BS BT none iter sIdx tIdx = true ↔
      (sIdx + tIdx = iter ∧ sIdx < numSBlocks S BS ∧ tIdx < numTBlocks T BT)) ∧
    (∀ iter, (∃ sIdx tIdx, activeTile S T BS BT none iter sIdx tIdx = true) ↔
      iter < numIterations S T BS BT) := by
  have hgen : ∀ (bd : Option Bounds) (iter sIdx tIdx : ℕ),
      activeTile S T BS BT bd iter sIdx tIdx = true ↔
        (sIdx + tIdx = iter ∧ sIdx < numSBlocks S BS ∧
         (sIdx : ℤ) * BS + (resolveBounds S T bd).s_begin <
           (resolveBounds S T bd).s_end ∧
         (tIdx : ℤ) * BT + (resolveBounds S T bd).t_begin <
           (resolveBounds S T bd).t_end) := by
    intro bd iter sIdx tIdx
    have hsbb : adjSBlockBegin bd (sBlockBegin0 sIdx BS) =
        (sIdx : ℤ) * BS + (resolveBounds S T bd).s_begin := by
      cases bd <;> simp [adjSBlockBegin, sBlockBegin0, resolveBounds]
    have htbb : adjTBlockBegin bd (tBlockBegin0 iter sIdx BT) =
        ((iter : ℤ) - sIdx) * BT + (resolveBounds S T bd).t_begin := by
      cases bd <;> simp [adjTBlockBegin, tBlockBegin0, resolveBounds]
    simp only [activeTile, tileDoesWork, numBlocksThisIter, blockSCode, blockTCode,
      Bool.and_eq_true, beq_iff_eq, decide_eq_true_eq, lt_min_iff, hsbb, htbb]
    constructor
    · rintro ⟨⟨hsum, hlt1, hlt2⟩, ⟨hbt1, hbs2⟩, ⟨hbs1, hbt2⟩⟩
      have e : ((iter : ℤ) - sIdx) = (tIdx : ℤ) := by omega
      rw [e] at hbt2
      exact ⟨hsum, hlt2, by linarith, by linarith⟩
    · rintro ⟨hsum, hns, hsint, htint⟩
      have e : ((iter : ℤ) - sIdx) = (tIdx : ℤ) := by omega
      refine ⟨⟨hsum, by omega, hns⟩, ⟨by exact_mod_cast hBT, by linarith⟩,
        ⟨by exact_mod_cast hBS, ?_⟩⟩
      rw [e]
      linarith
  have hiff : ∀ iter sIdx tIdx, activeTile S T BS BT none iter sIdx tIdx = true ↔
      (sIdx + tIdx = iter ∧ sIdx < numSBlocks S BS ∧ tIdx < numTBlocks T BT) := by
    intro iter sIdx tIdx
    rw [hgen]
    simp only [resolveBounds, add_zero]
    constructor
    · rintro ⟨hsum, hns, hsint, htint⟩
      have h2 : tIdx * BT < T := by exact_mod_cast htint
      exact ⟨hsum, hns, (mul_lt_iff_lt_ceilDiv tIdx T BT hBT).mp h2⟩
    · rintro ⟨hsum, hns, hnt⟩
      have hsS : sIdx * BS < S := (mul_lt_iff_lt_ceilDiv sIdx S BS hBS).mpr hns
      have htT : tIdx * BT < T := (mul_lt_iff_lt_ceilDiv tIdx T BT hBT).mpr hnt
      exact ⟨hsum, hns, by exact_mod_cast hsS, by exact_mod_cast htT⟩
  have hns1 : 1 ≤ numSBlocks S BS := by
    rw [numSBlocks, Nat.le_div_iff_mul_le hBS]
    omega
  have hnt1 : 1 ≤ numTBlocks T BT := by
    rw [numTBlocks, Nat.le_div_iff_mul_le hBT]
    omega
  refine ⟨rfl, hgen, hiff, ?_⟩
  intro iter
  constructor
  · rintro ⟨sIdx, tIdx, h⟩
    obtain ⟨hsum, hs, ht⟩ := (hiff iter sIdx tIdx).mp h
    unfold numIterations
    omega
  · intro h
    unfold numIterations at h
    refine ⟨min iter (numSBlocks S BS - 1), iter - min iter (numSBlocks S BS - 1),
      (hiff _ _ _).mpr ⟨by omega, by omega, by omega⟩⟩

/-- Witness for the amended C3: the general activity characterization at
`S = T = 8`, tile sizes `(4, 4)`, the explicit boundary `(0, 0, 1, 1)`,
iteration 1, tile `(1, 0)`. -/
theorem c3_amended_witness :
    activeTile 8 8 4 4 (some ⟨0, 0, 1, 1⟩) 1 1 0 = true ↔
      (1 + 0 = 1 ∧ 1 < numSBlocks 8 4 ∧
       (1 : ℤ) * 4 + (resolveBounds 8 8 (some ⟨0, 0, 1, 1⟩)).s_begin <
         (resolveBounds 8 8 (some ⟨0, 0, 1, 1⟩)).s_end ∧
       (0 : ℤ) * 4 + (resolveBounds 8 8 (some ⟨0, 0, 1, 1⟩)).t_begin <
         (resolveBounds 8 8 (some ⟨0, 0, 1, 1⟩)).t_end) :=
  (c3_amended_wavefront 8 8 4 4 (by decide) (by decide) (by decide)
    (by decide)).2.1 (some ⟨0, 0, 1, 1⟩) 1 1 0

/-- C4 (code bug): at `S = 4`, `T = 128`, tile sizes `(4, 64)`, empty
boundary, iteration 1, the unit of tile `(s_block_index, t_block_index) =
(0, 1)` performs work, its `is_origin_block` flag is true (kernel line 149
tests `s_block_begin * t_block_begin == 0`, which holds on all of block-row
0), and the border import of kernel lines 204-214 writes the seed value
`1.0` into its imported border cell `p_buf[0][1]` — although that tile does
not contain the rectangle origin `(0, 0)`, where the claim (and the spec)
put the unique seed. -/
theorem c4_origin_seed_bug :
    isOriginBlockCode (sBlockBegin0 0 4) (tBlockBegin0 1 0 64) = true ∧
    tileDoesWork 4 128 4 64 none 1 0 = true ∧
    (∀ p, topBorderValue p (adjSBlockBegin none (sBlockBegin0 0 4))
        (adjTBlockBegin none (tBlockBegin0 1 0 64))
        (blockSCode 64 (resolveBounds 4 128 none).s_end
          (adjSBlockBegin none (sBlockBegin0 0 4)))
        (blockTCode 4 (resolveBounds 4 128 none).t_end
          (adjTBlockBegin none (tBlockBegin0 1 0 64)))
        (isOriginBlockCode (sBlockBegin0 0 4) (tBlockBegin0 1 0 64)) 1 = .fin 1) ∧
    tileContains 4 64 (adjSBlockBegin none (sBlockBegin0 0 4))
      (adjTBlockBegin none (tBlockBegin0 1 0 64)) 0 0 = false := by
  refine ⟨by decide, by decide, fun p => rfl, by decide⟩

/-- C5 (code bug): kernel line 170 computes the s-direction extent as
`min(BLOCK_T_SIZE, s_end - s_block_begin)`; with `BLOCK_S_SIZE = 4`,
`BLOCK_T_SIZE = 64` and `s_end - s_block_begin = 10` it yields 10, not the
`min(tile_S, s_end - s_block_begin) = 4` the claim (and the code's own
comment at lines 167-169) state; symmetrically line 171 truncates the
t-extent with `BLOCK_S_SIZE`.  The no-work-outside-the-rectangle half of the
claim does hold (last conjunct: a tile past a collapsed rectangle is
skipped). -/
theorem c5_block_extent_swap :
    blockSCode 64 10 0 = 10 ∧
    min (4 : ℤ) 10 = 4 ∧
    decide ((10 : ℤ) = 4) = false ∧
    blockTCode 4 10 0 = 4 ∧
    tileDoesWork 10 10 4 64 (some ⟨0, 0, 1, 1⟩) 1 1 = false := by decide

/-- C7 counterexample: a 3-dimensional CUDA input and a CUDA params tensor
with `params.size(1) = 4` (not a power of two plus one).  None of the
claim's rejection conditions holds — the single input is 3-dimensional,
there is no boundary operand at all, and both operands sit on the same
accelerator — yet the forward entry point rejects the call. -/
theorem c7_counterexample :
    (mutualInformationCuda 256 ⟨[2, 3, 4], .cuda 0⟩ ⟨[3, 4], .cuda 0⟩).isOk = false ∧
    (⟨[2, 3, 4], .cuda 0⟩ : TensorMeta).dims.length = 3 ∧
    (⟨[2, 3, 4], .cuda 0⟩ : TensorMeta).device =
      (⟨[3, 4], .cuda 0⟩ : TensorMeta).device := by
  decide

/-- C7 corrected: the forward entry point in the source validates
`(input, params)` — there is no boundary operand.  It rejects the call
synchronously, before any launch, exactly when: the input is not
3-dimensional, or params is not 2-dimensional, or `params.size(1)` is not a
power of two plus one (at least 3), or `params.size(0) != input.size(1)`,
or input or params is not on a CUDA device (individual `is_cuda` tests, not
a same-device comparison), or — on a nonempty input — the tiling capacity
check `N + 1 <= THREADS_PER_BLOCK` fails; every rejection carries a
nonempty human-readable message. -/
theorem c7_amended_reject_conditions (TPB : ℕ) (input params : TensorMeta) :
    ((mutualInformationCuda TPB input params).isOk = false ↔
      (input.dims.length ≠ 3 ∨ params.dims.length ≠ 2 ∨
       ¬ (paramsSizeCheck (params.size 1) = true) ∨
       params.size 0 ≠ input.size 1 ∨
       ¬ (input.device.isCuda = true) ∨ ¬ (params.device.isCuda = true) ∨
       (input.size 1 * input.size 0 * input.size 2 ≠ 0 ∧
        TPB < params.size 1 - 1 + 1))) ∧
    (∀ m, mutualInformationCuda TPB input params = .error m → 0 < m.length) := by
  have hce := forwardCodeCheck_holds TPB (input.size 2)
  constructor
  · unfold mutualInformationCuda
    split_ifs with h1 h2 h3 h4 h5 h6 h7 h8
    · refine iff_of_false (by simp [Except.isOk, Except.toBool]) ?_
      rintro (hc | hc | hc | hc | hc | hc | ⟨hc1, hc2⟩)
      · exact hc h1
      · exact hc h2
      · exact hc h3
      · exact hc h4
      · exact hc h5
      · exact hc h6
      · exact hc1 h7
    · refine iff_of_false (by simp [Except.isOk, Except.toBool]) ?_
      rintro (hc | hc | hc | hc | hc | hc | ⟨hc1, hc2⟩)
      · exact hc h1
      · exact hc h2
      · exact hc h3
      · exact hc h4
      · exact hc h5
      · exact hc h6
      · omega
    · exact iff_of_true rfl
        (Or.inr (Or.inr (Or.inr (Or.inr (Or.inr (Or.inr ⟨h7, by omega⟩))))))
    · exact iff_of_true rfl (Or.inr (Or.inr (Or.inr (Or.inr (Or.inr (Or.inl h6))))))
    · exact iff_of_true rfl (Or.inr (Or.inr (Or.inr (Or.inr (Or.inl h5)))))
    · exact iff_of_true rfl (Or.inr (Or.inr (Or.inr (Or.inl h4))))
    · exact iff_of_true rfl (Or.inr (Or.inr (Or.inl h3)))
    · exact iff_of_true rfl (Or.inr (Or.inl h2))
    · exact iff_of_true rfl (Or.inl h1)
  · unfold mutualInformationCuda
    split_ifs <;> intro m hm <;> cases hm <;> decide

/-- Witness for C7 corrected: a channel-count mismatch is rejected. -/
theorem c7_amended_witness :
    (mutualInformationCuda 256 ⟨[1, 2, 3], .cuda 0⟩ ⟨[3, 5], .cuda 0⟩).isOk = false :=
  (c7_amended_reject_conditions 256 ⟨[1, 2, 3], .cuda 0⟩ ⟨[3, 5], .cuda 0⟩).1.mpr
    (by decide)

set_option maxHeartbeats 1600000 in
theorem backwardPrecheckError_none (input params outputGrad : TensorMeta)
    (h : backwardPrecheckError input params outputGrad = none) :
    outputGrad.dims = input.dims ∧
    4 ≤ params.size 1 - 1 ∧ params.size 1 - 1 ≤ 16 ∧
    ∃ k, params.size 1 - 1 = 2 ^ k := by
  unfold backwardPrecheckError at h
  split_ifs at h with h1 h2 h3 h4 h5 h6 h7 h8 h9 h10 h11
  obtain ⟨hog3, hs0, hs1, hs2⟩ := h5
  exact ⟨dims_eq_of_rank3_sizes _ _ h1 hog3 hs0 hs1 hs2, h9, h10,
    pow_two_of_land_pred _ (by omega) h11⟩

set_option maxHeartbeats 1600000 in
/-- C8: the backward entry point rejects the call synchronously — before the
gradient tensors are allocated or any kernel is launched — whenever the
output-gradient shape differs from the input shape, or the tiling parameter
`N = params.size(1) - 1` violates `4 <= N <= 16` or is not a power of
two. -/
theorem c8_backward_precondition_reject (TPB : ℕ)
    (input params outputGrad : TensorMeta) (g : ℕ → ℕ → ℕ → ℝ)
    (h : outputGrad.dims ≠ input.dims ∨
         ¬ (4 ≤ params.size 1 - 1 ∧ params.size 1 - 1 ≤ 16 ∧
            ∃ k, params.size 1 - 1 = 2 ^ k)) :
    (mutualInformationBackwardCuda TPB input params outputGrad g).isOk = false := by
  cases hpre : backwardPrecheckError input params outputGrad with
  | some m =>
    unfold mutualInformationBackwardCuda
    rw [hpre]
    rfl
  | none =>
    exfalso
    obtain ⟨hdims, h9, h10, hN⟩ := backwardPrecheckError_none _ _ _ hpre
    rcases h with hL | hR
    · exact hL hdims
    · exact hR ⟨h9, h10, hN⟩

set_option maxHeartbeats 1600000 in
/-- Witness for C8: an output-gradient shape mismatch is rejected. -/
theorem c8_backward_precondition_reject_witness :
    (mutualInformationBackwardCuda 256 ⟨[1, 2, 3], .cuda 0⟩ ⟨[2, 5], .cuda 0⟩
        ⟨[1, 2, 4], .cuda 0⟩ (fun _ _ _ => 0)).isOk = false :=
  c8_backward_precondition_reject 256 ⟨[1, 2, 3], .cuda 0⟩ ⟨[2, 5], .cuda 0⟩
    ⟨[1, 2, 4], .cuda 0⟩ (fun _ _ _ => 0) (Or.inl (by decide))

set_option maxHeartbeats 1600000 in
/-- C9: when the backward entry point succeeds on a nonempty input, the
per-thread-group partial parameter-gradient sums `g` — written by the
kernel into the `(grid_dim_y, C, N+1)` tensor the host allocates at line
821 — are reduced by summation over that leading dimension after the kernel
returns, on the host side (`at::sum(params_grad, {0})`, line 836), and the
returned parameter gradient has shape `(C, N+1)`. -/
theorem c9_params_grad_reduction (TPB : ℕ) (input params outputGrad : TensorMeta)
    (g : ℕ → ℕ → ℕ → ℝ)
    (hok : (mutualInformationBackwardCuda TPB input params outputGrad g).isOk = true)
    (hne : input.size 1 * input.size 0 * input.size 2 ≠ 0) :
    mutualInformationBackwardCuda TPB input params outputGrad g =
      .ok ⟨[input.size 0, input.size 1, input.size 2],
           [input.size 1, params.size 1 - 1 + 1],
           sumDim0 (gridDimY (input.size 0) (input.size 1)
             (imagesPerThreadBlockB TPB (input.size 2) (params.size 1 - 1))) g,
           true⟩ := by
  unfold mutualInformationBackwardCuda at hok ⊢
  cases hpre : backwardPrecheckError input params outputGrad with
  | some m =>
    rw [hpre] at hok
    simp [Except.isOk, Except.toBool] at hok
  | none =>
    simp only [hpre] at hok ⊢
    rw [if_neg hne] at hok ⊢
    cases hcap : backwardCapacityError TPB input params with
    | some m =>
      rw [hcap] at hok
      simp [Except.isOk, Except.toBool] at hok
    | none =>
      rfl

set_option maxHeartbeats 1600000 in
/-- Witness for C9 at a concrete nonempty valid input. -/
theorem c9_params_grad_reduction_witness :
    mutualInformationBackwardCuda 256 ⟨[1, 2, 3], .cuda 0⟩ ⟨[2, 5], .cuda 0⟩
        ⟨[1, 2, 3], .cuda 0⟩ (fun y c n => (y + c + n : ℝ)) =
      .ok ⟨[1, 2, 3], [2, 5],
           sumDim0 (gridDimY 1 2 (imagesPerThreadBlockB 256 3 4))
             (fun y c n => (y + c + n : ℝ)), true⟩ :=
  c9_params_grad_reduction 256 ⟨[1, 2, 3], .cuda 0⟩ ⟨[2, 5], .cuda 0⟩
    ⟨[1, 2, 3], .cuda 0⟩ (fun y c n => (y + c + n : ℝ)) (by rfl) (by decide)

set_option maxHeartbeats 1600000 in
/-- C10: on an input whose element count `B*C*T` is zero, the forward entry
point returns a tensor of shape `(B, C, T)` without launching any kernel,
and the backward entry point returns an input gradient of shape `(B, C, T)`
and a parameter gradient of shape `(C, N+1)` without launching any
kernel. -/
theorem c10_empty_no_launch (TPB : ℕ) (input params outputGrad : TensorMeta)
    (g : ℕ → ℕ → ℕ → ℝ)
    (hzero : input.size 1 * input.size 0 * input.size 2 = 0) :
    (∀ r, mutualInformationCuda TPB input params = .ok r →
      r.outDims = [input.size 0, input.size 1, input.size 2] ∧
      r.launched = false) ∧
    (∀ r, mutualInformationBackwardCuda TPB input params outputGrad g = .ok r →
      r.inputGradDims = [input.size 0, input.size 1, input.size 2] ∧
      r.paramsGradDims = [input.size 1, params.size 1 - 1 + 1] ∧
      r.launched = false) := by
  constructor
  · intro r hr
    unfold mutualInformationCuda at hr
    split_ifs at hr
    cases hr
    exact ⟨rfl, rfl⟩
  · intro r hr
    unfold mutualInformationBackwardCuda at hr
    cases hpre : backwardPrecheckError input params outputGrad with
    | some m =>
      rw [hpre] at hr
      exact Except.noConfusion hr
    | none =>
      simp only [hpre] at hr
      rw [if_pos hzero] at hr
      cases hr
      exact ⟨rfl, rfl, rfl⟩

set_option maxHeartbeats 1600000 in
/-- Witness for C10 at `B = 0`. -/
theorem c10_empty_no_launch_witness :
    (⟨[0, 1, 5], Device.cuda 0, false⟩ : ForwardOutcome).outDims = [0, 1, 5] ∧
    (⟨[0, 1, 5], Device.cuda 0, false⟩ : ForwardOutcome).launched = false :=
  (c10_empty_no_launch 256 ⟨[0, 1, 5], .cuda 0⟩ ⟨[1, 5], .cuda 0⟩
      ⟨[0, 1, 5], .cuda 0⟩ (fun _ _ _ => 0) (by decide)).1
    ⟨[0, 1, 5], .cuda 0, false⟩ (by rfl)

end MutualInfo
